import Mathlib

set_option maxRecDepth 100000

/-
Verification of src/vtpm-snp/src/report.rs (azure-cvm-tooling).

The source validates an AMD SEV-SNP attestation report: it checks TCB
consistency, re-serializes the report with bincode, hashes the leading
report_len - signature_len bytes with SHA-384, and verifies the trailing
ECDSA signature against the VCEK public key.

The report layout comes from the external sev crate
(sev::firmware::guest::types::{AttestationReport, Signature}), a fixed
repr(C) byte layout with no padding, matching the AMD SEV-SNP ABI:
  0x000..0x180  version, guest_svn, policy, family_id, image_id, vmpl,
                signature_algo, current_tcb, platform_info, author_key_en,
                reserved, report_data, measurement, host_data,
                id_key_digest, author_key_digest, report_id, report_id_ma
  0x180..0x188  reported_tcb   (TcbVersion, 8 bytes)
  0x188..0x1A0  reserved       (24 bytes)
  0x1A0..0x1E0  chip_id        (64 bytes)
  0x1E0..0x1E8  committed_tcb  (TcbVersion, 8 bytes)
  0x1E8..0x2A0  current/committed build/minor/major, launch_tcb, reserved
                (184 bytes)
  0x2A0..0x4A0  signature      (Signature: r 72 bytes, s 72 bytes,
                                reserved 368 bytes; total 512 bytes)
Total size 0x4A0 = 1184 bytes.  Fields the source never inspects are
grouped as raw byte segments at their exact offsets; the fields the
source reads (reported_tcb, committed_tcb, signature) are structured.

bincode (1.x) with its default fixed-int little-endian configuration
serializes this struct as the plain concatenation of its field bytes, so
bincode serialization coincides with the wire layout above.  The legacy
entry point bincode::deserialize used by parse is configured with
allow_trailing_bytes, so it reads exactly the fixed number of bytes from
the front of the buffer, fails with an Io/Eof error when the buffer is
too short, and silently ignores any trailing bytes.

openssl primitives (Sha384, EcdsaSig, key extraction) and the bincode
serializer are the external collaborators of the spec; validate is
parameterized by a provider record of these operations and additionally
returns the exact sequence of provider calls it performed, so that the
fail-fast and digest-content claims are statements about validate itself.
-/

namespace VtpmSnp

/-- A byte of the wire format. -/
abbrev Byte := Fin 256

/-- sev::firmware::guest::types::TcbVersion: bootloader, tee,
reserved [u8; 4], snp, microcode — 8 bytes, all compared by the derived
structural equality. -/
structure TcbVersion where
  bootloader : Byte
  tee : Byte
  reserved0 : Byte
  reserved1 : Byte
  reserved2 : Byte
  reserved3 : Byte
  snp : Byte
  microcode : Byte
deriving DecidableEq

/-- sev::firmware::guest::types::Signature: r [u8; 72], s [u8; 72],
reserved [u8; 368] — 512 bytes total. -/
structure Signature where
  r : List Byte
  s : List Byte
  reserved : List Byte
deriving DecidableEq

/-- The fixed-size field lengths of Signature, which in Rust are enforced
by the array types themselves. -/
def Signature.wf (s : Signature) : Prop :=
  s.r.length = 72 ∧ s.s.length = 72 ∧ s.reserved.length = 368

instance (s : Signature) : Decidable s.wf := by
  unfold Signature.wf; infer_instance

/-- sev::firmware::guest::types::AttestationReport.  The fields the source
inspects (reported_tcb, committed_tcb, signature) are structured; the
remaining fixed-width fields are grouped as raw byte segments at their
exact offsets (see the header comment for the mapping). -/
structure AttestationReport where
  head : List Byte
  reported_tcb : TcbVersion
  reserved1 : List Byte
  chip_id : List Byte
  committed_tcb : TcbVersion
  tail : List Byte
  signature : Signature
deriving DecidableEq

/-- The fixed segment lengths of AttestationReport, enforced in Rust by
the array types of the struct definition. -/
def AttestationReport.wf (r : AttestationReport) : Prop :=
  r.head.length = 384 ∧ r.reserved1.length = 24 ∧ r.chip_id.length = 64 ∧
    r.tail.length = 184 ∧ r.signature.wf

instance (r : AttestationReport) : Decidable r.wf := by
  unfold AttestationReport.wf; infer_instance

/-- std::mem::size_of::<AttestationReport>() = 0x4A0. -/
def report_len : Nat := 1184

/-- std::mem::size_of::<Signature>() = 512. -/
def signature_len : Nat := 512

/-- bincode serialization of TcbVersion: its 8 field bytes in order. -/
def TcbVersion.encode (t : TcbVersion) : List Byte :=
  [t.bootloader, t.tee, t.reserved0, t.reserved1, t.reserved2, t.reserved3,
    t.snp, t.microcode]

/-- bincode serialization of Signature: r, s, reserved in order. -/
def Signature.encode (s : Signature) : List Byte :=
  s.r ++ s.s ++ s.reserved

/-- bincode serialization of AttestationReport: all field bytes in
declaration order; the signature comes last. -/
def AttestationReport.encode (r : AttestationReport) : List Byte :=
  r.head ++ r.reported_tcb.encode ++ r.reserved1 ++ r.chip_id ++
    r.committed_tcb.encode ++ r.tail ++ r.signature.encode

/-- All report fields except the trailing signature, serialized in order:
the signed prefix of the wire format. -/
def AttestationReport.encodeBase (r : AttestationReport) : List Byte :=
  r.head ++ r.reported_tcb.encode ++ r.reserved1 ++ r.chip_id ++
    r.committed_tcb.encode ++ r.tail

/-- Read exactly n bytes from the front of the buffer, as the bincode
reader does; fails (Io/Eof) when fewer than n bytes remain. -/
def takeExact (n : Nat) (bs : List Byte) : Option (List Byte × List Byte) :=
  if n ≤ bs.length then some (bs.take n, bs.drop n) else none

/-- Build a TcbVersion from its 8 serialized bytes. -/
def TcbVersion.ofBytes (f : List Byte) : TcbVersion :=
  ⟨f.getD 0 0, f.getD 1 0, f.getD 2 0, f.getD 3 0,
    f.getD 4 0, f.getD 5 0, f.getD 6 0, f.getD 7 0⟩

/-- bincode deserialization of TcbVersion: 8 bytes from the front. -/
def TcbVersion.decode (bs : List Byte) : Option (TcbVersion × List Byte) :=
  match takeExact 8 bs with
  | none => none
  | some (f, rest) => some (.ofBytes f, rest)

/-- bincode deserialization of Signature: 72 + 72 + 368 bytes. -/
def Signature.decode (bs : List Byte) : Option (Signature × List Byte) :=
  match takeExact 72 bs with
  | none => none
  | some (r, bs1) =>
    match takeExact 72 bs1 with
    | none => none
    | some (s, bs2) =>
      match takeExact 368 bs2 with
      | none => none
      | some (res, bs3) => some (⟨r, s, res⟩, bs3)

/-- bincode deserialization of AttestationReport: the fields in
declaration order, consuming exactly report_len bytes. -/
def AttestationReport.decode (bs : List Byte) :
    Option (AttestationReport × List Byte) :=
  match takeExact 384 bs with
  | none => none
  | some (head, bs1) =>
    match TcbVersion.decode bs1 with
    | none => none
    | some (rtcb, bs2) =>
      match takeExact 24 bs2 with
      | none => none
      | some (res1, bs3) =>
        match takeExact 64 bs3 with
        | none => none
        | some (chip, bs4) =>
          match TcbVersion.decode bs4 with
          | none => none
          | some (ctcb, bs5) =>
            match takeExact 184 bs5 with
            | none => none
            | some (tl, bs6) =>
              match Signature.decode bs6 with
              | none => none
              | some (sig, bs7) =>
                some (⟨head, rtcb, res1, chip, ctcb, tl, sig⟩, bs7)

/-- The error kinds of bincode::ErrorKind that can arise here: Io (Eof)
on a short read during deserialization, SizeLimit on serialization with a
byte limit (never configured by this code). -/
inductive BincodeErrorKind where
  | Eof
  | SizeLimit
deriving DecidableEq

/-- bincode::deserialize (the legacy entry point used by parse): default
fixed-int configuration with allow_trailing_bytes, so it decodes from the
front of the buffer and ignores any bytes left over. -/
def bincode_deserialize (bs : List Byte) :
    Except BincodeErrorKind AttestationReport :=
  match AttestationReport.decode bs with
  | some (decoded, _rest) => .ok decoded
  | none => .error .Eof

/-- pub fn parse(bytes: &[u8]) -> Result<AttestationReport, Box<dyn Error>>. -/
def parse (bytes : List Byte) : Except BincodeErrorKind AttestationReport :=
  bincode_deserialize bytes

/-- bincode::serialize: writing a fixed-size struct of byte fields to a
Vec with no size limit cannot fail, so the Result is always Ok; the
Except type records the Rust signature. -/
def bincode_serialize (r : AttestationReport) :
    Except BincodeErrorKind (List Byte) :=
  .ok r.encode

/-- fn is_tcb_data_valid(report: &AttestationReport) -> bool. -/
def is_tcb_data_valid (report : AttestationReport) : Bool :=
  report.reported_tcb == report.committed_tcb

/-- openssl::error::ErrorStack, opaque to this code. -/
structure ErrorStack where
  code : Nat
deriving DecidableEq

/-- ValidateError from report.rs: OpenSsl from openssl::error::ErrorStack,
Tcb, MeasurementSignature, IoError from std::io::Error (the Io variant),
Bincode from Box<bincode::ErrorKind>. -/
inductive ValidateError where
  | OpenSsl (e : ErrorStack)
  | Tcb
  | MeasurementSignature
  | IoError (e : Nat)
  | Bincode (e : BincodeErrorKind)
deriving DecidableEq

/-- An openssl EcdsaSig handle, opaque to this code. -/
structure EcdsaSig where
  raw : List Byte
deriving DecidableEq

/-- An openssl PKey<Public> handle, opaque to this code. -/
structure PKeyPub where
  raw : List Byte
deriving DecidableEq

/-- An openssl EcKey<Public> handle, opaque to this code. -/
structure EcKeyPub where
  raw : List Byte
deriving DecidableEq

/-- Modelled from the spec: the Vcek type lives in certs.rs, which is not
among the sources; the spec describes it as an opaque wrapper around a
caller-supplied X509 certificate from which an EC public key can be
extracted (signing key material, borrowed read-only). -/
structure Vcek where
  x509 : List Byte
deriving DecidableEq

/-- The external collaborators invoked by validate: the sev-crate
signature conversion TryFrom<&Signature> for EcdsaSig, the openssl key
extraction and SHA-384 and ECDSA primitives, and the bincode serializer
used by get_report_base. -/
structure CryptoProvider where
  ecdsaSigFromSignature : Signature → Except ErrorStack EcdsaSig
  x509PublicKey : Vcek → Except ErrorStack PKeyPub
  pkeyEcKey : PKeyPub → Except ErrorStack EcKeyPub
  sha384 : List Byte → List Byte
  ecdsaVerify : EcdsaSig → List Byte → EcKeyPub → Except ErrorStack Bool
  serialize : AttestationReport → Except BincodeErrorKind (List Byte)

/-- One observable call into the external providers, with the argument
that determines what work was requested. -/
inductive PCall where
  | sigDecode (s : Signature)
  | publicKey
  | ecKey
  | serializeCall
  | hash (msg : List Byte)
  | verifySig (digest : List Byte)
deriving DecidableEq

/-- fn get_report_base(report) -> Result<Vec<u8>, Box<bincode::ErrorKind>>:
serialize the report and slice bytes[0 .. report_len - signature_len].
The outer Option models the Rust slice-out-of-range panic: none means the
serialized buffer was shorter than the slice bound and the code panics. -/
def get_report_base (ser : AttestationReport → Except BincodeErrorKind (List Byte))
    (report : AttestationReport) :
    Option (Except BincodeErrorKind (List Byte)) :=
  match ser report with
  | .error e => some (.error e)
  | .ok bytes =>
    if report_len - signature_len ≤ bytes.length then
      some (.ok (bytes.take (report_len - signature_len)))
    else
      none

/-- Validateable::validate for AttestationReport, instrumented: the result
is paired with the exact sequence of provider calls made, in order.  The
outer Option models the panic that get_report_base could raise.  Control
flow mirrors the source: the TCB gate first, then signature conversion,
then public-key extraction, then the SHA-384 of get_report_base, then the
ECDSA verify whose false result maps to MeasurementSignature. -/
def validate (P : CryptoProvider) (self : AttestationReport) (vcek : Vcek) :
    Option (Except ValidateError Unit × List PCall) :=
  if ¬ is_tcb_data_valid self then
    some (.error .Tcb, [])
  else
    match P.ecdsaSigFromSignature self.signature with
    | .error e => some (.error (.OpenSsl e), [.sigDecode self.signature])
    | .ok report_sig =>
      match P.x509PublicKey vcek with
      | .error e =>
        some (.error (.OpenSsl e), [.sigDecode self.signature, .publicKey])
      | .ok pk =>
        match P.pkeyEcKey pk with
        | .error e =>
          some (.error (.OpenSsl e),
            [.sigDecode self.signature, .publicKey, .ecKey])
        | .ok vcek_pubkey =>
          match get_report_base P.serialize self with
          | none => none
          | some (.error e) =>
            some (.error (.Bincode e),
              [.sigDecode self.signature, .publicKey, .ecKey, .serializeCall])
          | some (.ok base_message) =>
            let base_message_digest := P.sha384 base_message
            match P.ecdsaVerify report_sig base_message_digest vcek_pubkey with
            | .error e =>
              some (.error (.OpenSsl e),
                [.sigDecode self.signature, .publicKey, .ecKey,
                  .serializeCall, .hash base_message,
                  .verifySig base_message_digest])
            | .ok false =>
              some (.error .MeasurementSignature,
                [.sigDecode self.signature, .publicKey, .ecKey,
                  .serializeCall, .hash base_message,
                  .verifySig base_message_digest])
            | .ok true =>
              some (.ok (),
                [.sigDecode self.signature, .publicKey, .ecKey,
                  .serializeCall, .hash base_message,
                  .verifySig base_message_digest])

/-- The Signature Verifier of spec section 4.3, stated from the spec words:
convert the signature, extract the key, hash the signed prefix, run ECDSA
verification, mapping a false verification to MeasurementSignature.  Used
to compare the orchestrator against the spec decomposition. -/
def verify_signature (P : CryptoProvider) (report : AttestationReport)
    (vcek : Vcek) : Option (Except ValidateError Unit × List PCall) :=
  match P.ecdsaSigFromSignature report.signature with
  | .error e => some (.error (.OpenSsl e), [.sigDecode report.signature])
  | .ok report_sig =>
    match P.x509PublicKey vcek with
    | .error e =>
      some (.error (.OpenSsl e), [.sigDecode report.signature, .publicKey])
    | .ok pk =>
      match P.pkeyEcKey pk with
      | .error e =>
        some (.error (.OpenSsl e),
          [.sigDecode report.signature, .publicKey, .ecKey])
      | .ok vcek_pubkey =>
        match get_report_base P.serialize report with
        | none => none
        | some (.error e) =>
          some (.error (.Bincode e),
            [.sigDecode report.signature, .publicKey, .ecKey, .serializeCall])
        | some (.ok base_message) =>
          let base_message_digest := P.sha384 base_message
          match P.ecdsaVerify report_sig base_message_digest vcek_pubkey with
          | .error e =>
            some (.error (.OpenSsl e),
              [.sigDecode report.signature, .publicKey, .ecKey,
                .serializeCall, .hash base_message,
                .verifySig base_message_digest])
          | .ok false =>
            some (.error .MeasurementSignature,
              [.sigDecode report.signature, .publicKey, .ecKey,
                .serializeCall, .hash base_message,
                .verifySig base_message_digest])
          | .ok true =>
            some (.ok (),
              [.sigDecode report.signature, .publicKey, .ecKey,
                .serializeCall, .hash base_message,
                .verifySig base_message_digest])

/-! ### Reader and codec lemmas -/

theorem takeExact_of_le {n : Nat} {bs : List Byte} (h : n ≤ bs.length) :
    takeExact n bs = some (bs.take n, bs.drop n) := by
  simp [takeExact, h]

theorem takeExact_append {t : List Byte} {n : Nat} (h : t.length = n)
    (d : List Byte) : takeExact n (t ++ d) = some (t, d) := by
  subst h
  simp [takeExact, List.take_left, List.drop_left]

theorem takeExact_eq_some {n : Nat} {bs t d : List Byte}
    (h : takeExact n bs = some (t, d)) : bs = t ++ d ∧ t.length = n := by
  unfold takeExact at h
  split at h
  · next hle =>
    cases h
    refine ⟨(List.take_append_drop n bs).symm, ?_⟩
    simp [List.length_take, Nat.min_eq_left hle]
  · cases h

theorem tcb_encode_length (t : TcbVersion) : t.encode.length = 8 := rfl

theorem TcbVersion.encode_ofBytes (f : List Byte) (h : f.length = 8) :
    (TcbVersion.ofBytes f).encode = f := by
  rcases f with _ | ⟨b0, _ | ⟨b1, _ | ⟨b2, _ | ⟨b3, _ | ⟨b4, _ | ⟨b5, _ |
    ⟨b6, _ | ⟨b7, _ | ⟨b8, f⟩⟩⟩⟩⟩⟩⟩⟩⟩ <;>
      simp only [List.length_cons, List.length_nil] at h <;>
      first
        | omega
        | rfl

theorem tcb_decode_encode (t : TcbVersion) (rest : List Byte) :
    TcbVersion.decode (t.encode ++ rest) = some (t, rest) := by
  simp only [TcbVersion.decode, takeExact_append (tcb_encode_length t) rest]
  rfl

theorem tcb_decode_sound {bs : List Byte} {t : TcbVersion}
    {rest : List Byte} (h : TcbVersion.decode bs = some (t, rest)) :
    bs = t.encode ++ rest := by
  unfold TcbVersion.decode at h
  split at h
  · exact Option.noConfusion h
  · next f d htk =>
    have hp := Option.some.inj h
    rw [Prod.mk.injEq] at hp
    obtain ⟨ht, hd⟩ := hp
    obtain ⟨hbs, hlen⟩ := takeExact_eq_some htk
    subst ht
    subst hd
    rw [hbs, TcbVersion.encode_ofBytes f hlen]

theorem sig_encode_length {s : Signature} (h : s.wf) :
    s.encode.length = 512 := by
  obtain ⟨h1, h2, h3⟩ := h
  simp [Signature.encode, h1, h2, h3]

theorem sig_decode_encode {s : Signature} (h : s.wf) (rest : List Byte) :
    Signature.decode (s.encode ++ rest) = some (s, rest) := by
  obtain ⟨h1, h2, h3⟩ := h
  have e : s.encode ++ rest = s.r ++ (s.s ++ (s.reserved ++ rest)) := by
    simp [Signature.encode]
  simp only [Signature.decode, e, takeExact_append h1, takeExact_append h2,
    takeExact_append h3]

theorem sig_decode_sound {bs : List Byte} {s : Signature}
    {rest : List Byte} (h : Signature.decode bs = some (s, rest)) :
    bs = s.encode ++ rest ∧ s.wf := by
  unfold Signature.decode at h
  split at h
  · exact Option.noConfusion h
  · next r bs1 h1 =>
    split at h
    · exact Option.noConfusion h
    · next sc bs2 h2 =>
      split at h
      · exact Option.noConfusion h
      · next res bs3 h3 =>
        have hp := Option.some.inj h
        rw [Prod.mk.injEq] at hp
        obtain ⟨hs, hrest⟩ := hp
        obtain ⟨e1, l1⟩ := takeExact_eq_some h1
        obtain ⟨e2, l2⟩ := takeExact_eq_some h2
        obtain ⟨e3, l3⟩ := takeExact_eq_some h3
        subst hs
        subst hrest
        subst e1
        subst e2
        subst e3
        exact ⟨by simp [Signature.encode], l1, l2, l3⟩

theorem report_encode_length {r : AttestationReport} (h : r.wf) :
    r.encode.length = report_len := by
  obtain ⟨h1, h2, h3, h4, h5⟩ := h
  simp [AttestationReport.encode, h1, h2, h3, h4, sig_encode_length h5,
    tcb_encode_length, report_len]

theorem AttestationReport.encodeBase_length {r : AttestationReport}
    (h : r.wf) : r.encodeBase.length = report_len - signature_len := by
  obtain ⟨h1, h2, h3, h4, _⟩ := h
  simp [AttestationReport.encodeBase, h1, h2, h3, h4,
    tcb_encode_length, report_len, signature_len]

theorem AttestationReport.encode_eq_encodeBase_append
    (r : AttestationReport) : r.encode = r.encodeBase ++ r.signature.encode := by
  simp [AttestationReport.encode, AttestationReport.encodeBase]

theorem report_decode_encode {r : AttestationReport} (h : r.wf)
    (rest : List Byte) :
    AttestationReport.decode (r.encode ++ rest) = some (r, rest) := by
  obtain ⟨h1, h2, h3, h4, h5⟩ := h
  have e : r.encode ++ rest =
      r.head ++ (r.reported_tcb.encode ++ (r.reserved1 ++ (r.chip_id ++
        (r.committed_tcb.encode ++ (r.tail ++ (r.signature.encode ++
          rest)))))) := by
    simp [AttestationReport.encode]
  simp only [AttestationReport.decode, e, takeExact_append h1,
    tcb_decode_encode, takeExact_append h2, takeExact_append h3,
    takeExact_append h4, sig_decode_encode ⟨h5.1, h5.2.1, h5.2.2⟩]

theorem report_decode_sound {bs : List Byte}
    {r : AttestationReport} {rest : List Byte}
    (h : AttestationReport.decode bs = some (r, rest)) :
    bs = r.encode ++ rest ∧ r.wf := by
  unfold AttestationReport.decode at h
  split at h
  · exact Option.noConfusion h
  · next head bs1 k1 =>
    split at h
    · exact Option.noConfusion h
    · next rtcb bs2 k2 =>
      split at h
      · exact Option.noConfusion h
      · next res1 bs3 k3 =>
        split at h
        · exact Option.noConfusion h
        · next chip bs4 k4 =>
          split at h
          · exact Option.noConfusion h
          · next ctcb bs5 k5 =>
            split at h
            · exact Option.noConfusion h
            · next tl bs6 k6 =>
              split at h
              · exact Option.noConfusion h
              · next sig bs7 k7 =>
                have hp := Option.some.inj h
                rw [Prod.mk.injEq] at hp
                obtain ⟨hr, hrest⟩ := hp
                obtain ⟨e1, l1⟩ := takeExact_eq_some k1
                have e2 := tcb_decode_sound k2
                obtain ⟨e3, l3⟩ := takeExact_eq_some k3
                obtain ⟨e4, l4⟩ := takeExact_eq_some k4
                have e5 := tcb_decode_sound k5
                obtain ⟨e6, l6⟩ := takeExact_eq_some k6
                obtain ⟨e7, swf⟩ := sig_decode_sound k7
                subst hr
                subst hrest
                subst e1
                subst e2
                subst e3
                subst e4
                subst e5
                subst e6
                subst e7
                refine ⟨by simp [AttestationReport.encode], l1, l3, l4, l6,
                  swf⟩

theorem AttestationReport.decode_of_length {bs : List Byte}
    (h : report_len ≤ bs.length) :
    ∃ pr, AttestationReport.decode bs = some pr := by
  rw [report_len] at h
  simp only [AttestationReport.decode, TcbVersion.decode, Signature.decode,
    takeExact_of_le (show (384 : Nat) ≤ bs.length by omega),
    takeExact_of_le (show (8 : Nat) ≤ (bs.drop 384).length by
      simp only [List.length_drop]; omega),
    takeExact_of_le (show (24 : Nat) ≤ ((bs.drop 384).drop 8).length by
      simp only [List.length_drop]; omega),
    takeExact_of_le (show (64 : Nat) ≤
        (((bs.drop 384).drop 8).drop 24).length by
      simp only [List.length_drop]; omega),
    takeExact_of_le (show (8 : Nat) ≤
        ((((bs.drop 384).drop 8).drop 24).drop 64).length by
      simp only [List.length_drop]; omega),
    takeExact_of_le (show (184 : Nat) ≤
        (((((bs.drop 384).drop 8).drop 24).drop 64).drop 8).length by
      simp only [List.length_drop]; omega),
    takeExact_of_le (show (72 : Nat) ≤
        ((((((bs.drop 384).drop 8).drop 24).drop 64).drop 8).drop
          184).length by
      simp only [List.length_drop]; omega),
    takeExact_of_le (show (72 : Nat) ≤
        (((((((bs.drop 384).drop 8).drop 24).drop 64).drop 8).drop
          184).drop 72).length by
      simp only [List.length_drop]; omega),
    takeExact_of_le (show (368 : Nat) ≤
        ((((((((bs.drop 384).drop 8).drop 24).drop 64).drop 8).drop
          184).drop 72).drop 72).length by
      simp only [List.length_drop]; omega)]
  exact ⟨_, rfl⟩

theorem AttestationReport.decode_short {bs : List Byte}
    (h : bs.length < report_len) : AttestationReport.decode bs = none := by
  by_contra hne
  obtain ⟨⟨r, rest⟩, hd⟩ := Option.ne_none_iff_exists'.mp hne
  obtain ⟨hbs, hwf⟩ := report_decode_sound hd
  have := report_encode_length hwf
  rw [hbs, List.length_append, this] at h
  omega

/-! ### Characterization of get_report_base and validate -/

/-- Map the ECDSA primitive outcome to the validate result, as the source
does: a primitive fault propagates as OpenSsl, a false verification is
MeasurementSignature, a true verification is success. -/
def verdict : Except ErrorStack Bool → Except ValidateError Unit
  | .error e => .error (.OpenSsl e)
  | .ok false => .error .MeasurementSignature
  | .ok true => .ok ()

/-- The full provider-call trace of a validate run that reaches the ECDSA
verification. -/
def fullTrace (P : CryptoProvider) (report : AttestationReport) :
    List PCall :=
  [.sigDecode report.signature, .publicKey, .ecKey, .serializeCall,
    .hash report.encodeBase, .verifySig (P.sha384 report.encodeBase)]

theorem get_report_base_eq {r : AttestationReport} (h : r.wf) :
    get_report_base bincode_serialize r = some (.ok r.encodeBase) := by
  have hb : r.encodeBase.length = report_len - signature_len :=
    AttestationReport.encodeBase_length h
  have hlen : report_len - signature_len ≤ r.encode.length := by
    rw [report_encode_length h]
    simp [report_len, signature_len]
  simp only [get_report_base, bincode_serialize, if_pos hlen]
  rw [AttestationReport.encode_eq_encodeBase_append, ← hb, List.take_left]

theorem validate_tcb_fail {P : CryptoProvider} {report : AttestationReport}
    {vcek : Vcek} (h : is_tcb_data_valid report = false) :
    validate P report vcek = some (.error .Tcb, []) := by
  unfold validate
  rw [if_pos (by simp [h])]

theorem validate_sig_err {P : CryptoProvider} {report : AttestationReport}
    {vcek : Vcek} {e : ErrorStack}
    (htcb : is_tcb_data_valid report = true)
    (hsig : P.ecdsaSigFromSignature report.signature = .error e) :
    validate P report vcek =
      some (.error (.OpenSsl e), [.sigDecode report.signature]) := by
  unfold validate
  rw [if_neg (by simp [htcb])]
  simp only [hsig]

theorem validate_pk_err {P : CryptoProvider} {report : AttestationReport}
    {vcek : Vcek} {sig : EcdsaSig} {e : ErrorStack}
    (htcb : is_tcb_data_valid report = true)
    (hsig : P.ecdsaSigFromSignature report.signature = .ok sig)
    (hpk : P.x509PublicKey vcek = .error e) :
    validate P report vcek =
      some (.error (.OpenSsl e),
        [.sigDecode report.signature, .publicKey]) := by
  unfold validate
  rw [if_neg (by simp [htcb])]
  simp only [hsig, hpk]

theorem validate_ek_err {P : CryptoProvider} {report : AttestationReport}
    {vcek : Vcek} {sig : EcdsaSig} {pk : PKeyPub} {e : ErrorStack}
    (htcb : is_tcb_data_valid report = true)
    (hsig : P.ecdsaSigFromSignature report.signature = .ok sig)
    (hpk : P.x509PublicKey vcek = .ok pk)
    (hek : P.pkeyEcKey pk = .error e) :
    validate P report vcek =
      some (.error (.OpenSsl e),
        [.sigDecode report.signature, .publicKey, .ecKey]) := by
  unfold validate
  rw [if_neg (by simp [htcb])]
  simp only [hsig, hpk, hek]

theorem validate_ser_err {P : CryptoProvider} {report : AttestationReport}
    {vcek : Vcek} {sig : EcdsaSig} {pk : PKeyPub} {ek : EcKeyPub}
    {e : BincodeErrorKind}
    (htcb : is_tcb_data_valid report = true)
    (hsig : P.ecdsaSigFromSignature report.signature = .ok sig)
    (hpk : P.x509PublicKey vcek = .ok pk)
    (hek : P.pkeyEcKey pk = .ok ek)
    (hser : P.serialize report = .error e) :
    validate P report vcek =
      some (.error (.Bincode e),
        [.sigDecode report.signature, .publicKey, .ecKey,
          .serializeCall]) := by
  unfold validate
  rw [if_neg (by simp [htcb])]
  simp only [hsig, hpk, hek, get_report_base, hser]

theorem validate_run {P : CryptoProvider} {report : AttestationReport}
    {vcek : Vcek} {sig : EcdsaSig} {pk : PKeyPub} {ek : EcKeyPub}
    (hwf : report.wf) (htcb : is_tcb_data_valid report = true)
    (hser : P.serialize = bincode_serialize)
    (hsig : P.ecdsaSigFromSignature report.signature = .ok sig)
    (hpk : P.x509PublicKey vcek = .ok pk)
    (hek : P.pkeyEcKey pk = .ok ek) :
    validate P report vcek =
      some (verdict (P.ecdsaVerify sig (P.sha384 report.encodeBase) ek),
        fullTrace P report) := by
  unfold validate
  rw [if_neg (by simp [htcb])]
  simp only [hsig, hpk, hek, hser, get_report_base_eq hwf]
  cases hv : P.ecdsaVerify sig (P.sha384 report.encodeBase) ek with
  | error e => simp [verdict, fullTrace]
  | ok b => cases b <;> simp [verdict, fullTrace]

/-! ### Concrete fixtures used by the witness theorems -/

def zeroTcb : TcbVersion := ⟨0, 0, 0, 0, 0, 0, 0, 0⟩

def oneTcb : TcbVersion := ⟨1, 0, 0, 0, 0, 0, 0, 0⟩

def zeroSig : Signature :=
  ⟨List.replicate 72 0, List.replicate 72 0, List.replicate 368 0⟩

def zeroReport : AttestationReport :=
  ⟨List.replicate 384 0, zeroTcb, List.replicate 24 0, List.replicate 64 0,
    zeroTcb, List.replicate 184 0, zeroSig⟩

def badTcbReport : AttestationReport := { zeroReport with reported_tcb := oneTcb }

def zeroVcek : Vcek := ⟨[]⟩

/-- A provider with prescribed outcomes for each primitive, used to
exercise validate on concrete inputs. -/
def testProvider (sigR : Except ErrorStack EcdsaSig)
    (pkR : Except ErrorStack PKeyPub) (ekR : Except ErrorStack EcKeyPub)
    (vR : Except ErrorStack Bool)
    (ser : AttestationReport → Except BincodeErrorKind (List Byte)) :
    CryptoProvider :=
  { ecdsaSigFromSignature := fun _ => sigR
    x509PublicKey := fun _ => pkR
    pkeyEcKey := fun _ => ekR
    sha384 := fun msg => msg.take 48
    ecdsaVerify := fun _ _ _ => vR
    serialize := ser }

def okProvider : CryptoProvider :=
  testProvider (.ok ⟨[]⟩) (.ok ⟨[]⟩) (.ok ⟨[]⟩) (.ok true) bincode_serialize

def failSerProvider : CryptoProvider :=
  testProvider (.ok ⟨[]⟩) (.ok ⟨[]⟩) (.ok ⟨[]⟩) (.ok true)
    (fun _ => .error .SizeLimit)

theorem TcbVersion.eq_iff (a b : TcbVersion) :
    a = b ↔ (a.bootloader = b.bootloader ∧ a.tee = b.tee ∧
      a.reserved0 = b.reserved0 ∧ a.reserved1 = b.reserved1 ∧
      a.reserved2 = b.reserved2 ∧ a.reserved3 = b.reserved3 ∧
      a.snp = b.snp ∧ a.microcode = b.microcode) := by
  cases a
  cases b
  simp [TcbVersion.mk.injEq]

/-! ### Claim theorems -/

/-- C1: whenever validate reaches the hashing step (TCB gate passed,
signature conversion and key extraction succeeded, serializer is bincode),
the message it hashes — whose SHA-384 digest the ECDSA verification then
receives — is exactly report.encodeBase, the serialization of every field
except the trailing signature; encodeBase equals the first
report_len - signature_len bytes of the re-serialized report, and it is
invariant under any replacement of the signature field, so the signature
bytes are never part of the hashed message. -/
theorem C1_digest_is_sha384_of_signed_prefix (P : CryptoProvider)
    (report : AttestationReport) (vcek : Vcek) (sig : EcdsaSig)
    (pk : PKeyPub) (ek : EcKeyPub) (hwf : report.wf)
    (htcb : is_tcb_data_valid report = true)
    (hser : P.serialize = bincode_serialize)
    (hsig : P.ecdsaSigFromSignature report.signature = .ok sig)
    (hpk : P.x509PublicKey vcek = .ok pk)
    (hek : P.pkeyEcKey pk = .ok ek) :
    validate P report vcek =
      some (verdict (P.ecdsaVerify sig (P.sha384 report.encodeBase) ek),
        fullTrace P report) ∧
    report.encodeBase =
      (AttestationReport.encode report).take (report_len - signature_len) ∧
    (∀ s : Signature,
      AttestationReport.encodeBase { report with signature := s } =
        report.encodeBase) := by
  refine ⟨validate_run hwf htcb hser hsig hpk hek, ?_, fun _ => rfl⟩
  rw [AttestationReport.encode_eq_encodeBase_append,
    ← AttestationReport.encodeBase_length hwf, List.take_left]

theorem C1_digest_is_sha384_of_signed_prefix_witness :
    validate okProvider zeroReport zeroVcek =
      some (.ok (), fullTrace okProvider zeroReport) ∧
    zeroReport.encodeBase =
      (AttestationReport.encode zeroReport).take
        (report_len - signature_len) := by
  have h := C1_digest_is_sha384_of_signed_prefix okProvider zeroReport
    zeroVcek ⟨[]⟩ ⟨[]⟩ ⟨[]⟩ (by decide) (by decide) rfl rfl rfl rfl
  exact ⟨h.1, h.2.1⟩

/-- C2: if reported_tcb differs from committed_tcb, validate returns the
Tcb error (TcbInconsistent) with an empty provider-call trace, for every
provider and key: no signature decoding, key extraction, hashing,
serialization or ECDSA verification is invoked. -/
theorem C2_tcb_gate_fail_fast (P : CryptoProvider)
    (report : AttestationReport) (vcek : Vcek)
    (h : report.reported_tcb ≠ report.committed_tcb) :
    validate P report vcek = some (.error .Tcb, []) :=
  validate_tcb_fail (by rw [is_tcb_data_valid, beq_eq_false_iff_ne]; exact h)

theorem C2_tcb_gate_fail_fast_witness :
    badTcbReport.reported_tcb ≠ badTcbReport.committed_tcb ∧
      validate okProvider badTcbReport zeroVcek =
        some (.error .Tcb, []) :=
  ⟨by decide, C2_tcb_gate_fail_fast okProvider badTcbReport zeroVcek
    (by decide)⟩

/-- C3 counterexample: a buffer strictly longer (1185 bytes) than the
fixed report size is not rejected: parse succeeds, decoding the leading
report_len bytes and silently ignoring the trailing byte, because the
legacy bincode::deserialize entry point allows trailing bytes. -/
theorem C3_oversized_buffer_parses :
    report_len < (List.replicate 1185 (0 : Byte)).length ∧
      parse (List.replicate 1185 (0 : Byte)) = .ok zeroReport := by
  constructor
  · simp [report_len]
  · rfl

/-- C3 (amended): parse returns a DecodeError exactly on buffers strictly
shorter than the fixed report size, and never decodes partially there; on
buffers of length at least the fixed size parse succeeds, decoding the
report from the first report_len bytes and ignoring any trailing bytes. -/
theorem C3_parse_length_behavior (bytes : List Byte) :
    (bytes.length < report_len → parse bytes = .error .Eof) ∧
    (report_len ≤ bytes.length →
      ∃ decoded, parse bytes = .ok decoded ∧ decoded.wf ∧
        AttestationReport.encode decoded = bytes.take report_len) := by
  constructor
  · intro h
    unfold parse bincode_deserialize
    rw [AttestationReport.decode_short h]
  · intro h
    obtain ⟨⟨r, rest⟩, hd⟩ := AttestationReport.decode_of_length h
    obtain ⟨hbs, hwf⟩ := report_decode_sound hd
    refine ⟨r, ?_, hwf, ?_⟩
    · unfold parse bincode_deserialize
      rw [hd]
    · rw [hbs, ← report_encode_length hwf, List.take_left]

theorem C3_parse_length_behavior_witness :
    parse (List.replicate 10 (0 : Byte)) = .error .Eof ∧
      ∃ decoded, parse (List.replicate 1184 (0 : Byte)) = .ok decoded ∧
        decoded.wf ∧ AttestationReport.encode decoded =
          (List.replicate 1184 (0 : Byte)).take report_len :=
  ⟨(C3_parse_length_behavior (List.replicate 10 0)).1 (by decide),
    (C3_parse_length_behavior (List.replicate 1184 0)).2 (by decide)⟩

/-- C4: past the TCB gate, validate succeeds iff the ECDSA primitive
evaluates to true on the computed digest; a primitive that evaluates to
false yields MeasurementSignature (SignatureInvalid); a failed signature
conversion or a failed key extraction (either stage) yields the OpenSsl
error (CryptoBackendError), which is distinct from
MeasurementSignature. -/
theorem C4_verifier_outcomes (P : CryptoProvider)
    (report : AttestationReport) (vcek : Vcek) (hwf : report.wf)
    (htcb : is_tcb_data_valid report = true)
    (hser : P.serialize = bincode_serialize) :
    (∀ e, P.ecdsaSigFromSignature report.signature = .error e →
      validate P report vcek =
        some (.error (.OpenSsl e), [.sigDecode report.signature])) ∧
    (∀ sig e, P.ecdsaSigFromSignature report.signature = .ok sig →
      P.x509PublicKey vcek = .error e →
      validate P report vcek =
        some (.error (.OpenSsl e),
          [.sigDecode report.signature, .publicKey])) ∧
    (∀ sig pk e, P.ecdsaSigFromSignature report.signature = .ok sig →
      P.x509PublicKey vcek = .ok pk → P.pkeyEcKey pk = .error e →
      validate P report vcek =
        some (.error (.OpenSsl e),
          [.sigDecode report.signature, .publicKey, .ecKey])) ∧
    (∀ sig pk ek, P.ecdsaSigFromSignature report.signature = .ok sig →
      P.x509PublicKey vcek = .ok pk → P.pkeyEcKey pk = .ok ek →
      (P.ecdsaVerify sig (P.sha384 report.encodeBase) ek = .ok false →
        validate P report vcek =
          some (.error .MeasurementSignature, fullTrace P report)) ∧
      ((validate P report vcek).map Prod.fst = some (.ok ()) ↔
        P.ecdsaVerify sig (P.sha384 report.encodeBase) ek = .ok true)) ∧
    (∀ e, ValidateError.OpenSsl e ≠ ValidateError.MeasurementSignature) := by
  refine ⟨fun e he => validate_sig_err htcb he,
    fun sig e h1 h2 => validate_pk_err htcb h1 h2,
    fun sig pk e h1 h2 h3 => validate_ek_err htcb h1 h2 h3,
    ?_, fun e => by simp⟩
  intro sig pk ek h1 h2 h3
  have hrun := validate_run hwf htcb hser h1 h2 h3
  constructor
  · intro hv
    rw [hrun, hv]
    rfl
  · rw [hrun]
    cases hv : P.ecdsaVerify sig (P.sha384 report.encodeBase) ek with
    | error e => simp [verdict]
    | ok b => cases b <;> simp [verdict]

theorem C4_verifier_outcomes_witness :
    (validate okProvider zeroReport zeroVcek).map Prod.fst =
      some (.ok ()) :=
  ((C4_verifier_outcomes okProvider zeroReport zeroVcek (by decide)
    (by decide) rfl).2.2.2.1 ⟨[]⟩ ⟨[]⟩ ⟨[]⟩ rfl rfl rfl).2.mpr rfl

/-- C5: bincode decode and encode are mutually inverse on this report
type: decoding the serialization of any report gives back the report, and
any buffer of exactly the fixed report size decodes to a report whose
re-serialization reproduces the buffer byte-for-byte. -/
theorem C5_round_trip :
    (∀ r : AttestationReport, r.wf →
      bincode_deserialize (AttestationReport.encode r) = .ok r) ∧
    (∀ b : List Byte, b.length = report_len →
      ∃ r, bincode_deserialize b = .ok r ∧
        AttestationReport.encode r = b) := by
  constructor
  · intro r hwf
    unfold bincode_deserialize
    rw [show AttestationReport.encode r =
        AttestationReport.encode r ++ [] by simp,
      report_decode_encode hwf]
  · intro b hb
    obtain ⟨⟨r, rest⟩, hd⟩ :=
      AttestationReport.decode_of_length (le_of_eq hb.symm)
    obtain ⟨hbs, hwf⟩ := report_decode_sound hd
    have hlen := report_encode_length hwf
    have hrest : rest.length = 0 := by
      have hbl := congrArg List.length hbs
      rw [List.length_append, hlen, hb] at hbl
      omega
    have hrnil : rest = [] := List.length_eq_zero.mp hrest
    refine ⟨r, ?_, ?_⟩
    · unfold bincode_deserialize
      rw [hd]
    · rw [hbs, hrnil, List.append_nil]

theorem C5_round_trip_witness :
    bincode_deserialize (AttestationReport.encode zeroReport) =
      .ok zeroReport ∧
    ∃ r, bincode_deserialize (List.replicate 1184 (0 : Byte)) = .ok r ∧
      AttestationReport.encode r = List.replicate 1184 (0 : Byte) :=
  ⟨C5_round_trip.1 zeroReport (by decide),
    C5_round_trip.2 (List.replicate 1184 0) (by decide)⟩

/-- C6: is_tcb_data_valid returns true exactly when reported_tcb equals
committed_tcb under full structural equality — every constituent sub-field
(bootloader, tee, the four reserved bytes, snp, microcode) equal; it is a
pure Bool-valued function of the report, so it has no side effects. -/
theorem C6_tcb_check_structural_equality (report : AttestationReport) :
    is_tcb_data_valid report = true ↔
      (report.reported_tcb.bootloader = report.committed_tcb.bootloader ∧
       report.reported_tcb.tee = report.committed_tcb.tee ∧
       report.reported_tcb.reserved0 = report.committed_tcb.reserved0 ∧
       report.reported_tcb.reserved1 = report.committed_tcb.reserved1 ∧
       report.reported_tcb.reserved2 = report.committed_tcb.reserved2 ∧
       report.reported_tcb.reserved3 = report.committed_tcb.reserved3 ∧
       report.reported_tcb.snp = report.committed_tcb.snp ∧
       report.reported_tcb.microcode = report.committed_tcb.microcode) := by
  rw [is_tcb_data_valid, beq_iff_eq, TcbVersion.eq_iff]

/-- C7: on every report that passes the TCB gate, validate returns exactly
the result of the Signature Verifier, unchanged: same outcome, same error
kinds, same provider calls. -/
theorem C7_orchestrator_delegates (P : CryptoProvider)
    (report : AttestationReport) (vcek : Vcek)
    (htcb : is_tcb_data_valid report = true) :
    validate P report vcek = verify_signature P report vcek := by
  unfold validate verify_signature
  rw [if_neg (by simp [htcb])]

theorem C7_orchestrator_delegates_witness :
    is_tcb_data_valid zeroReport = true ∧
      validate okProvider zeroReport zeroVcek =
        verify_signature okProvider zeroReport zeroVcek :=
  ⟨by decide, C7_orchestrator_delegates okProvider zeroReport zeroVcek
    (by decide)⟩

/-- C8: parse, is_tcb_data_valid and validate are deterministic pure
functions of their inputs: identical byte buffers, providers, reports and
key material give identical results.  The embedding is functional because
the Rust functions take shared references, mutate nothing, and touch no
shared state. -/
theorem C8_deterministic_pure (b1 b2 : List Byte) (P1 P2 : CryptoProvider)
    (r1 r2 : AttestationReport) (v1 v2 : Vcek) (hb : b1 = b2)
    (hP : P1 = P2) (hr : r1 = r2) (hv : v1 = v2) :
    parse b1 = parse b2 ∧ is_tcb_data_valid r1 = is_tcb_data_valid r2 ∧
      validate P1 r1 v1 = validate P2 r2 v2 := by
  subst hb
  subst hP
  subst hr
  subst hv
  exact ⟨rfl, rfl, rfl⟩

theorem C8_deterministic_pure_witness :
    parse [] = parse [] ∧
      is_tcb_data_valid zeroReport = is_tcb_data_valid zeroReport ∧
      validate okProvider zeroReport zeroVcek =
        validate okProvider zeroReport zeroVcek :=
  C8_deterministic_pure [] [] okProvider okProvider zeroReport zeroReport
    zeroVcek zeroVcek rfl rfl rfl rfl

/-- C9: re-serializing any (well-typed) report yields at least
report_len - signature_len bytes, so the slice taken by get_report_base is
in bounds: get_report_base never panics (returns some) and validate never
panics on the slicing step. -/
theorem C9_slice_in_bounds (P : CryptoProvider)
    (report : AttestationReport) (vcek : Vcek) (hwf : report.wf)
    (hser : P.serialize = bincode_serialize) :
    report_len - signature_len ≤
      (AttestationReport.encode report).length ∧
    get_report_base bincode_serialize report =
      some (.ok report.encodeBase) ∧
    validate P report vcek ≠ none := by
  refine ⟨?_, get_report_base_eq hwf, ?_⟩
  · rw [report_encode_length hwf]
    simp [report_len, signature_len]
  · cases htcb : is_tcb_data_valid report with
    | false =>
      rw [validate_tcb_fail htcb]
      simp
    | true =>
      cases h1 : P.ecdsaSigFromSignature report.signature with
      | error e =>
        rw [validate_sig_err htcb h1]
        simp
      | ok sig =>
        cases h2 : P.x509PublicKey vcek with
        | error e =>
          rw [validate_pk_err htcb h1 h2]
          simp
        | ok pk =>
          cases h3 : P.pkeyEcKey pk with
          | error e =>
            rw [validate_ek_err htcb h1 h2 h3]
            simp
          | ok ek =>
            rw [validate_run hwf htcb hser h1 h2 h3]
            simp

theorem C9_slice_in_bounds_witness :
    report_len - signature_len ≤
      (AttestationReport.encode zeroReport).length ∧
    get_report_base bincode_serialize zeroReport =
      some (.ok zeroReport.encodeBase) ∧
    validate okProvider zeroReport zeroVcek ≠ none :=
  C9_slice_in_bounds okProvider zeroReport zeroVcek (by decide) rfl

/-- C10: the error type of validate goes beyond the four-kind taxonomy of
the spec: a failing serializer makes validate return the Bincode variant,
distinct from Tcb, MeasurementSignature, OpenSsl and IoError; and the
type carries an IoError variant (populated only through the From
conversion on std::io::Error), likewise distinct from every other
variant. -/
theorem C10_bincode_and_io_variants (P : CryptoProvider)
    (report : AttestationReport) (vcek : Vcek) (sig : EcdsaSig)
    (pk : PKeyPub) (ek : EcKeyPub) (e : BincodeErrorKind)
    (htcb : is_tcb_data_valid report = true)
    (hsig : P.ecdsaSigFromSignature report.signature = .ok sig)
    (hpk : P.x509PublicKey vcek = .ok pk)
    (hek : P.pkeyEcKey pk = .ok ek)
    (hser : P.serialize report = .error e) :
    validate P report vcek =
      some (.error (.Bincode e),
        [.sigDecode report.signature, .publicKey, .ecKey,
          .serializeCall]) ∧
    (ValidateError.Bincode e ≠ .Tcb ∧
      ValidateError.Bincode e ≠ .MeasurementSignature ∧
      (∀ es, ValidateError.Bincode e ≠ .OpenSsl es) ∧
      (∀ n, ValidateError.Bincode e ≠ .IoError n)) ∧
    (∀ n, ValidateError.IoError n ≠ .Tcb ∧
      ValidateError.IoError n ≠ .MeasurementSignature ∧
      (∀ es, ValidateError.IoError n ≠ .OpenSsl es)) := by
  refine ⟨validate_ser_err htcb hsig hpk hek hser,
    ⟨by simp, by simp, fun es => by simp, fun n => by simp⟩,
    fun n => ⟨by simp, by simp, fun es => by simp⟩⟩

theorem C10_bincode_and_io_variants_witness :
    validate failSerProvider zeroReport zeroVcek =
      some (.error (.Bincode .SizeLimit),
        [.sigDecode zeroReport.signature, .publicKey, .ecKey,
          .serializeCall]) :=
  (C10_bincode_and_io_variants failSerProvider zeroReport zeroVcek ⟨[]⟩
    ⟨[]⟩ ⟨[]⟩ .SizeLimit (by decide) rfl rfl rfl rfl).1

end VtpmSnp
